import Mathlib

/-!
Verification development for an Express/Elasticsearch product-catalog service.

The repository's route layer contains four pieces of pure logic that we embed
shallowly here, translated statement-by-statement from the JavaScript source:

* the result shaper of `src/routes/analytics.js` (rounding and in-stock
  percentage derivation over aggregation buckets);
* the price-range aggregation builder of the aggregations route
  (`GET /api/aggregations/price-analysis`);
* the filter-clause builder and query compiler of `src/routes/search.js`
  (`POST /api/search`);
* the load-test benchmark harness of the performance route
  (`POST /api/performance/load-test`), including `calculatePercentile`.

JavaScript numbers are modelled as exact rationals together with the three
non-finite values NaN / Infinity / -Infinity (`JSNum`); the arithmetic that the
routes actually perform (division, multiplication by a constant, `Math.round`)
is given its ECMAScript semantics on that carrier.  `Array.prototype.sort`
with the numeric comparator `(a, b) => a - b` sorts ascending; any correct
ascending sort of rationals yields the same list, so we use `List.insertionSort`.
-/

/-! ### JavaScript number model -/

/-- A JavaScript number as the routes use them: an exact rational, or one of
the non-finite values `NaN`, `Infinity`, `-Infinity`. -/
inductive JSNum where
  | num (q : ℚ)
  | nan
  | inf
  | ninf
deriving DecidableEq, Repr

/-- ECMAScript division of two finite numbers: `0 / 0 = NaN`,
`a / 0 = ±Infinity` for `a ≠ 0`, ordinary division otherwise. -/
def jsDivQ (a b : ℚ) : JSNum :=
  if b = 0 then
    if a = 0 then JSNum.nan else if 0 < a then JSNum.inf else JSNum.ninf
  else JSNum.num (a / b)

/-- ECMAScript multiplication of a number by a finite constant. -/
def jsMulConst (x : JSNum) (c : ℚ) : JSNum :=
  match x with
  | JSNum.num q => JSNum.num (q * c)
  | JSNum.nan => JSNum.nan
  | JSNum.inf => if 0 < c then JSNum.inf else if c < 0 then JSNum.ninf else JSNum.nan
  | JSNum.ninf => if 0 < c then JSNum.ninf else if c < 0 then JSNum.inf else JSNum.nan

/-- ECMAScript `Math.round`: for finite `x` this is `⌊x + 1/2⌋` (halves round
toward positive infinity); `NaN` and the infinities are returned unchanged. -/
def jsMathRound (x : JSNum) : JSNum :=
  match x with
  | JSNum.num q => JSNum.num ((⌊q + 1 / 2⌋ : ℤ) : ℚ)
  | JSNum.nan => JSNum.nan
  | JSNum.inf => JSNum.inf
  | JSNum.ninf => JSNum.ninf

/-! ### Result shaper (`src/routes/analytics.js`, lines 45-57 and 94-101;
the identical expressions appear in the aggregations route's category handler) -/

/-- `Math.round(x * 100) / 100` applied to a finite value: the two-decimal
rounding the shaper applies to every `avg_price` and `avg_rating`. -/
def round2 (q : ℚ) : ℚ :=
  ((⌊q * 100 + 1 / 2⌋ : ℤ) : ℚ) / 100

/-- `Math.round((inStockCount / docCount) * 100)` — the in-stock percentage
expression of `analytics.js` line 100 and the aggregations route line 87,
with no guard on `docCount = 0`. -/
def shapeInStockPct (inStockCount docCount : ℕ) : JSNum :=
  jsMathRound (jsMulConst (jsDivQ (inStockCount : ℚ) (docCount : ℚ)) 100)

/-- A terms-aggregation bucket as consumed by the categories handler:
`key`, `doc_count`, the two metric sub-aggregation values, and the
filtered in-stock sub-count. -/
structure CategoryBucket where
  key : String
  doc_count : ℕ
  avg_price : ℚ
  avg_rating : ℚ
  in_stock_count : ℕ
deriving DecidableEq, Repr

/-- The shaped category record produced by `analytics.js` lines 94-101. -/
structure ShapedCategory where
  category : String
  count : ℕ
  avg_price : ℚ
  avg_rating : ℚ
  in_stock_count : ℕ
  in_stock_percentage : JSNum
deriving DecidableEq, Repr

/-- The per-bucket mapping of the categories handler (`analytics.js` 94-101):
both averages go through `Math.round(x * 100) / 100` and the in-stock
percentage through `Math.round((count / doc_count) * 100)`. -/
def shapeCategoryBucket (b : CategoryBucket) : ShapedCategory :=
  { category := b.key
    count := b.doc_count
    avg_price := round2 b.avg_price
    avg_rating := round2 b.avg_rating
    in_stock_count := b.in_stock_count
    in_stock_percentage := shapeInStockPct b.in_stock_count b.doc_count }

/-- An empty bucket: `doc_count = 0` and in-stock sub-count `0`. -/
def emptyBucket : CategoryBucket :=
  { key := "Electronics", doc_count := 0, avg_price := 0, avg_rating := 0,
    in_stock_count := 0 }

/-- A bucket whose rating average is 4.449 and whose price average is 19.999,
exercising the shaper's rounding. -/
def ratingBucket : CategoryBucket :=
  { key := "Audio", doc_count := 1, avg_price := 19999 / 1000,
    avg_rating := 4449 / 1000, in_stock_count := 1 }

/-- Claim C1, counterexample: on a bucket with `doc_count = 0` and in-stock
sub-count `0`, the shaper's in-stock percentage is `NaN` (the unguarded
`0 / 0`), which is not `0` as the claim states. -/
theorem shapeInStockPct_zero_bucket_is_nan :
    (shapeCategoryBucket emptyBucket).in_stock_percentage = JSNum.nan ∧
      JSNum.nan ≠ JSNum.num 0 := by
  constructor
  · decide
  · decide

/-- Claim C1 (amended): for every bucket whose doc count is 0 and whose
in-stock sub-count is 0, the shaped in-stock percentage is `NaN` — the
division by zero is not guarded and does not yield 0%; no exception is
raised (the shaper is a total function). -/
theorem shapeCategoryBucket_zero_doc_count_nan (b : CategoryBucket)
    (hdc : b.doc_count = 0) (hin : b.in_stock_count = 0) :
    (shapeCategoryBucket b).in_stock_percentage = JSNum.nan := by
  simp [shapeCategoryBucket, shapeInStockPct, hdc, hin, jsDivQ, jsMulConst,
    jsMathRound]

/-- Witness for claim C1's amended theorem at the concrete empty bucket. -/
theorem shapeCategoryBucket_zero_doc_count_nan_witness :
    emptyBucket.doc_count = 0 ∧ emptyBucket.in_stock_count = 0 ∧
      (shapeCategoryBucket emptyBucket).in_stock_percentage = JSNum.nan :=
  ⟨by decide, by decide,
    shapeCategoryBucket_zero_doc_count_nan emptyBucket (by decide) (by decide)⟩

/-- Claim C3, counterexample: the shaper rounds rating averages with
`Math.round(x * 100) / 100`, i.e. to TWO decimal places, so a rating average
of 4.449 shapes to 4.45, not to the claimed 4.4. -/
theorem shapeCategoryBucket_rating_two_decimals :
    (shapeCategoryBucket ratingBucket).avg_rating = 89 / 20 ∧
      (89 / 20 : ℚ) ≠ 22 / 5 := by
  constructor
  · show round2 (4449 / 1000) = 89 / 20
    rw [round2]
    norm_num
  · norm_num

/-- Claim C3 (amended): the shaper rounds BOTH currency and rating values to
2 decimal places using round-half-up (`Math.round(x * 100) / 100`): every
shaped `avg_price` and `avg_rating` equals `round2` of the raw average; in
particular a price average of 19.999 shapes to 20.00, a rating average of
4.449 shapes to 4.45 (not 4.4), and the half-way value 0.125 rounds up
to 0.13. -/
theorem shapeCategoryBucket_rounding :
    (∀ b : CategoryBucket,
        (shapeCategoryBucket b).avg_price = round2 b.avg_price ∧
          (shapeCategoryBucket b).avg_rating = round2 b.avg_rating) ∧
      round2 (19999 / 1000) = 20 ∧
      round2 (4449 / 1000) = 89 / 20 ∧
      round2 (125 / 1000) = 13 / 100 := by
  refine ⟨fun b => ⟨rfl, rfl⟩, ?_, ?_, ?_⟩ <;> rw [round2] <;> norm_num

/-! ### Price-range aggregation builder
(`GET /api/aggregations/price-analysis`, lines 97-114 of the aggregations
route): the caller-supplied comma-delimited breakpoints are parsed with
`split(',').map(Number)` and used IN THE GIVEN ORDER — the handler performs
no sorting and no validation before building the range buckets. -/

/-- The bucket label the handler interpolates into the `key` string:
`Under $b`, `$a - $b`, or `Over $b`.  Number-to-string rendering is
injective on distinct numbers, so we keep the key structured. -/
inductive PriceKey where
  | under (b : ℚ)
  | between (a b : ℚ)
  | over (b : ℚ)
deriving DecidableEq, Repr

/-- One entry of the `ranges` array: optional `from` (`lo`), optional `to`
(`hi`), and the label `key`. -/
structure PriceRange where
  lo : Option ℚ
  hi : Option ℚ
  key : PriceKey
deriving DecidableEq, Repr

/-- The loop body for indices `i ≥ 1` plus the trailing `Over $` push: given
the previous breakpoint, each further value `v` contributes
`{from: prev, to: v, key: $prev - $v}`, and after the loop the handler pushes
`{from: last, key: Over $last}`. -/
def buildPriceRangesTail (prev : ℚ) : List ℚ → List PriceRange
  | [] => [⟨some prev, none, PriceKey.over prev⟩]
  | v :: rest =>
      ⟨some prev, some v, PriceKey.between prev v⟩ :: buildPriceRangesTail v rest

/-- The `priceRanges` construction of the handler: the first value produces
`{to: v, key: Under $v}`, each later value a between-bucket against its
predecessor, and a final over-bucket on the last value.  (The handler would
produce one malformed bucket for an empty value list — its `undefined` last
element — but the endpoint's default `'50,100,200,500'` makes the list
non-empty and every claim assumes at least one breakpoint.) -/
def buildPriceRanges : List ℚ → List PriceRange
  | [] => []
  | v :: rest => ⟨none, some v, PriceKey.under v⟩ :: buildPriceRangesTail v rest

/-- The bucket list the spec describes for breakpoints `b1 < b2 < ... < bn`:
boundaries `(-∞,b1), (b1,b2), ..., (bn,+∞)`, lowest labeled `Under $b1`,
adjacent pairs labeled between, highest labeled `Over $bn`. -/
def specPriceBuckets : List ℚ → List PriceRange
  | [] => []
  | b1 :: tl =>
      ⟨none, some b1, PriceKey.under b1⟩ ::
        (((b1 :: tl).zip tl).map fun p =>
            ⟨some p.1, some p.2, PriceKey.between p.1 p.2⟩) ++
          [⟨some ((b1 :: tl).getLast (List.cons_ne_nil b1 tl)), none,
            PriceKey.over ((b1 :: tl).getLast (List.cons_ne_nil b1 tl))⟩]

theorem buildPriceRangesTail_eq_spec (tl : List ℚ) :
    ∀ prev : ℚ,
      buildPriceRangesTail prev tl =
        (((prev :: tl).zip tl).map fun p =>
            ⟨some p.1, some p.2, PriceKey.between p.1 p.2⟩) ++
          [⟨some ((prev :: tl).getLast (List.cons_ne_nil prev tl)), none,
            PriceKey.over ((prev :: tl).getLast (List.cons_ne_nil prev tl))⟩] := by
  induction tl with
  | nil => intro prev; simp [buildPriceRangesTail]
  | cons v rest ih =>
      intro prev
      simp only [buildPriceRangesTail, List.zip_cons_cons, List.map_cons,
        List.cons_append, List.cons.injEq, true_and]
      rw [ih v]
      have hlast : (prev :: v :: rest).getLast (List.cons_ne_nil prev (v :: rest)) =
          (v :: rest).getLast (List.cons_ne_nil v rest) :=
        List.getLast_cons (List.cons_ne_nil v rest)
      rw [hlast]

theorem buildPriceRangesTail_length (tl : List ℚ) :
    ∀ prev : ℚ, (buildPriceRangesTail prev tl).length = tl.length + 1 := by
  induction tl with
  | nil => intro prev; simp [buildPriceRangesTail]
  | cons v rest ih => intro prev; simp [buildPriceRangesTail, ih v]

/-- Every key produced by the tail builder is a between- or over-key whose
first boundary is at least `prev`; in particular no under-key occurs. -/
theorem buildPriceRangesTail_keys (tl : List ℚ) :
    ∀ prev : ℚ, List.Chain' (· < ·) (prev :: tl) →
      (((buildPriceRangesTail prev tl).map PriceRange.key).Nodup ∧
        ∀ k ∈ (buildPriceRangesTail prev tl).map PriceRange.key,
          (∀ a b : ℚ, k = PriceKey.between a b → prev ≤ a) ∧
            (∀ b : ℚ, k = PriceKey.over b → prev ≤ b) ∧
            ∀ b : ℚ, k ≠ PriceKey.under b) := by
  induction tl with
  | nil =>
      intro prev _
      refine ⟨by simp [buildPriceRangesTail], ?_⟩
      intro k hk
      simp [buildPriceRangesTail] at hk
      subst hk
      refine ⟨by simp, ?_, by simp⟩
      intro b hb
      cases hb
      exact le_refl prev
  | cons v rest ih =>
      intro prev hchain
      have hpv : prev < v := (List.chain'_cons.mp hchain).1
      have hrest : List.Chain' (· < ·) (v :: rest) := (List.chain'_cons.mp hchain).2
      obtain ⟨ihnd, ihmem⟩ := ih v hrest
      constructor
      · simp only [buildPriceRangesTail, List.map_cons, List.nodup_cons]
        refine ⟨?_, ihnd⟩
        intro hmem
        obtain ⟨hbet, _, _⟩ := ihmem _ hmem
        have := hbet prev v rfl
        exact absurd this (not_le.mpr hpv)
      · intro k hk
        simp only [buildPriceRangesTail, List.map_cons, List.mem_cons] at hk
        rcases hk with hk | hk
        · subst hk
          refine ⟨?_, by simp, by simp⟩
          intro a b hab
          cases hab
          exact le_refl prev
        · obtain ⟨hbet, hov, hun⟩ := ihmem k hk
          exact ⟨fun a b hab => le_of_lt (lt_of_lt_of_le hpv (hbet a b hab)),
            fun b hb => le_of_lt (lt_of_lt_of_le hpv (hov b hb)), hun⟩

/-- Claim C2, counterexample: the handler does not reject a non-increasing
breakpoint list and does not sort it — on the list `[100, 50]` it happily
builds three buckets whose middle bucket runs from 100 down to 50, and the
output differs from the output on the sorted list `[50, 100]`. -/
theorem buildPriceRanges_no_sort_no_reject :
    buildPriceRanges [100, 50] =
      [⟨none, some 100, PriceKey.under 100⟩,
        ⟨some 100, some 50, PriceKey.between 100 50⟩,
        ⟨some 50, none, PriceKey.over 50⟩] ∧
      buildPriceRanges [100, 50] ≠ buildPriceRanges [50, 100] := by
  constructor
  · rfl
  · intro h
    have := congrArg (fun l => l.map PriceRange.key) h
    simp [buildPriceRanges, buildPriceRangesTail] at this

/-- Claim C2 (amended): the Aggregation Spec Builder uses the caller-supplied
breakpoints in the order given — it neither sorts them nor rejects a
non-increasing list.  For a non-empty strictly increasing list
`b1 < b2 < ... < bn` it produces exactly `n + 1` range buckets with
boundaries `(-∞,b1), (b1,b2), ..., (bn,+∞)` and pairwise distinct labels,
the lowest labeled `Under $b1` and the highest `Over $bn`. -/
theorem buildPriceRanges_strictly_increasing (l : List ℚ) (hne : l ≠ [])
    (hinc : List.Chain' (· < ·) l) :
    buildPriceRanges l = specPriceBuckets l ∧
      (buildPriceRanges l).length = l.length + 1 ∧
      ((buildPriceRanges l).map PriceRange.key).Nodup := by
  cases l with
  | nil => exact absurd rfl hne
  | cons b1 tl =>
      refine ⟨?_, ?_, ?_⟩
      · simp only [buildPriceRanges, specPriceBuckets]
        rw [buildPriceRangesTail_eq_spec tl b1]
        rfl
      · simp [buildPriceRanges, buildPriceRangesTail_length tl b1]
      · obtain ⟨hnd, hmem⟩ := buildPriceRangesTail_keys tl b1 hinc
        simp only [buildPriceRanges, List.map_cons, List.nodup_cons]
        refine ⟨?_, hnd⟩
        intro hmemu
        obtain ⟨_, _, hun⟩ := hmem _ hmemu
        exact hun b1 rfl

/-- Witness for claim C2's amended theorem at the concrete strictly
increasing breakpoint list `[50, 100]`. -/
theorem buildPriceRanges_strictly_increasing_witness :
    ([50, 100] : List ℚ) ≠ [] ∧ List.Chain' (· < ·) ([50, 100] : List ℚ) ∧
      (buildPriceRanges [50, 100] = specPriceBuckets [50, 100] ∧
        (buildPriceRanges [50, 100]).length = ([50, 100] : List ℚ).length + 1 ∧
        ((buildPriceRanges [50, 100]).map PriceRange.key).Nodup) :=
  ⟨by simp, by norm_num,
    buildPriceRanges_strictly_increasing [50, 100] (by simp) (by norm_num)⟩

/-! ### Filter clause builder (`src/routes/search.js`, lines 84-132).
Fields of the request body that are absent from the JSON are modelled as
`none` (respectively `[]` for `tags`); the route tests `category`, `rating`
and `tags` for JavaScript truthiness (so `""`, `0` and `[]` behave like
absent values) but tests the price bounds and `inStock` with
`!== undefined`. -/

/-- The `filters` object of the request body (spec name: FilterSet).  The
source field for the rating floor is literally called `rating`. -/
structure FilterSet where
  category : Option String := none
  priceMin : Option ℚ := none
  priceMax : Option ℚ := none
  rating : Option ℚ := none
  inStock : Option Bool := none
  tags : List String := []
deriving DecidableEq, Repr

/-- A primitive filter clause as pushed onto `filterQueries`. -/
inductive Clause where
  | termCategory (c : String)
  | rangePrice (gte lte : Option ℚ)
  | rangeRating (gte : ℚ)
  | termInStock (b : Bool)
  | termsTags (ts : List String)
deriving DecidableEq, Repr

/-- `if (filters.category) push({term: {category}})` — truthiness test, so
an empty string emits nothing. -/
def catClauses (o : Option String) : List Clause :=
  match o with
  | some c => if c = "" then [] else [Clause.termCategory c]
  | none => []

/-- `if (priceMin !== undefined || priceMax !== undefined)` — one range
clause carrying whichever bounds are present. -/
def priceClauses (pmin pmax : Option ℚ) : List Clause :=
  if pmin.isSome || pmax.isSome then [Clause.rangePrice pmin pmax] else []

/-- `if (filters.rating) push({range: {rating: {gte}}})` — truthiness test,
so a rating floor of 0 emits nothing. -/
def ratingClauses (o : Option ℚ) : List Clause :=
  match o with
  | some r => if r = 0 then [] else [Clause.rangeRating r]
  | none => []

/-- `if (filters.inStock !== undefined) push({term: {inStock}})`. -/
def stockClauses (o : Option Bool) : List Clause :=
  match o with
  | some b => [Clause.termInStock b]
  | none => []

/-- `if (filters.tags && filters.tags.length > 0) push({terms: {tags}})`. -/
def tagsClauses (ts : List String) : List Clause :=
  if ts = [] then [] else [Clause.termsTags ts]

/-- The `filterQueries` construction of `search.js` lines 84-120: the five
pushes in source order.  (The surrounding `Object.keys(filters).length > 0`
guard only short-circuits the empty construction and does not change the
produced list.) -/
def buildFilterClauses (f : FilterSet) : List Clause :=
  catClauses f.category ++ priceClauses f.priceMin f.priceMax ++
    ratingClauses f.rating ++ stockClauses f.inStock ++ tagsClauses f.tags

/-- The position of each clause kind in the route's fixed emission order. -/
def clauseKind : Clause → ℕ
  | Clause.termCategory _ => 0
  | Clause.rangePrice _ _ => 1
  | Clause.rangeRating _ => 2
  | Clause.termInStock _ => 3
  | Clause.termsTags _ => 4

/-- The number of present fields in the spec's sense: a field counts as
present when it is supplied at all (the two price bounds jointly count as
the one price-range field; a supplied empty tag list counts as absent). -/
def specPresentCount (f : FilterSet) : ℕ :=
  (if f.category.isSome then 1 else 0) +
  (if f.priceMin.isSome || f.priceMax.isSome then 1 else 0) +
  (if f.rating.isSome then 1 else 0) +
  (if f.inStock.isSome then 1 else 0) +
  (if f.tags = [] then 0 else 1)

/-- The number of fields the route actually emits a clause for: like
`specPresentCount`, except that a supplied empty-string category and a
supplied rating floor of 0 are JavaScript-falsy and emit nothing. -/
def truthyPresentCount (f : FilterSet) : ℕ :=
  (match f.category with
    | some c => if c = "" then 0 else 1
    | none => 0) +
  (if f.priceMin.isSome || f.priceMax.isSome then 1 else 0) +
  (match f.rating with
    | some r => if r = 0 then 0 else 1
    | none => 0) +
  (if f.inStock.isSome then 1 else 0) +
  (if f.tags = [] then 0 else 1)

theorem catClauses_length (o : Option String) :
    (catClauses o).length = (match o with
      | some c => if c = "" then 0 else 1
      | none => 0) := by
  rcases o with _ | c
  · rfl
  · by_cases hc : c = "" <;> simp [catClauses, hc]

theorem priceClauses_length (pmin pmax : Option ℚ) :
    (priceClauses pmin pmax).length =
      (if pmin.isSome || pmax.isSome then 1 else 0) := by
  by_cases h : (pmin.isSome || pmax.isSome : Bool) <;> simp [priceClauses, h]

theorem ratingClauses_length (o : Option ℚ) :
    (ratingClauses o).length = (match o with
      | some r => if r = 0 then 0 else 1
      | none => 0) := by
  rcases o with _ | r
  · rfl
  · by_cases hr : r = 0 <;> simp [ratingClauses, hr]

theorem stockClauses_length (o : Option Bool) :
    (stockClauses o).length = (if o.isSome then 1 else 0) := by
  rcases o with _ | b <;> simp [stockClauses]

theorem tagsClauses_length (ts : List String) :
    (tagsClauses ts).length = (if ts = [] then 0 else 1) := by
  by_cases h : ts = [] <;> simp [tagsClauses, h]

theorem catClauses_kinds (o : Option String) :
    ∀ k ∈ (catClauses o).map clauseKind, k = 0 := by
  rcases o with _ | c
  · simp [catClauses]
  · by_cases hc : c = "" <;> simp [catClauses, hc, clauseKind]

theorem priceClauses_kinds (pmin pmax : Option ℚ) :
    ∀ k ∈ (priceClauses pmin pmax).map clauseKind, k = 1 := by
  by_cases h : (pmin.isSome || pmax.isSome : Bool) <;>
    simp [priceClauses, h, clauseKind]

theorem ratingClauses_kinds (o : Option ℚ) :
    ∀ k ∈ (ratingClauses o).map clauseKind, k = 2 := by
  rcases o with _ | r
  · simp [ratingClauses]
  · by_cases hr : r = 0 <;> simp [ratingClauses, hr, clauseKind]

theorem stockClauses_kinds (o : Option Bool) :
    ∀ k ∈ (stockClauses o).map clauseKind, k = 3 := by
  rcases o with _ | b <;> simp [stockClauses, clauseKind]

theorem tagsClauses_kinds (ts : List String) :
    ∀ k ∈ (tagsClauses ts).map clauseKind, k = 4 := by
  by_cases h : ts = [] <;> simp [tagsClauses, h, clauseKind]

theorem catClauses_short (o : Option String) : (catClauses o).length ≤ 1 := by
  rcases o with _ | c
  · simp [catClauses]
  · by_cases hc : c = "" <;> simp [catClauses, hc]

theorem priceClauses_short (pmin pmax : Option ℚ) :
    (priceClauses pmin pmax).length ≤ 1 := by
  by_cases h : (pmin.isSome || pmax.isSome : Bool) <;> simp [priceClauses, h]

theorem ratingClauses_short (o : Option ℚ) : (ratingClauses o).length ≤ 1 := by
  rcases o with _ | r
  · simp [ratingClauses]
  · by_cases hr : r = 0 <;> simp [ratingClauses, hr]

theorem stockClauses_short (o : Option Bool) : (stockClauses o).length ≤ 1 := by
  rcases o with _ | b <;> simp [stockClauses]

theorem tagsClauses_short (ts : List String) : (tagsClauses ts).length ≤ 1 := by
  by_cases h : ts = [] <;> simp [tagsClauses, h]

theorem sorted_of_short {α : Type} {r : α → α → Prop} {l : List α}
    (h : l.length ≤ 1) : l.Sorted r := by
  match l with
  | [] => exact List.sorted_nil
  | [a] => exact List.sorted_singleton a
  | a :: b :: t => simp at h

theorem sorted_append_blocks {X Y : List ℕ}
    (hX : X.Sorted (· < ·)) (hY : Y.Sorted (· < ·))
    (h : ∀ x ∈ X, ∀ y ∈ Y, x < y) : (X ++ Y).Sorted (· < ·) :=
  List.pairwise_append.mpr ⟨hX, hY, h⟩

/-- A FilterSet that supplies only a rating floor of 0. -/
def ratingZeroFilters : FilterSet := { rating := some 0 }

/-- Claim C5, counterexample: a FilterSet whose only present field is a
rating floor of 0 has one present field but produces zero clauses — the
route tests `filters.rating` for truthiness, so the falsy value 0 emits no
clause. -/
theorem buildFilterClauses_rating_zero_dropped :
    specPresentCount ratingZeroFilters = 1 ∧
      buildFilterClauses ratingZeroFilters = [] ∧
      (buildFilterClauses ratingZeroFilters).length ≠
        specPresentCount ratingZeroFilters := by
  refine ⟨by decide, by decide, by decide⟩

/-- Claim C5 (amended): for every FilterSet with `k` effectively present
fields — where a supplied empty-string category, a supplied rating floor
of 0 and an empty tag list count as absent (JavaScript truthiness), while
price bounds and `inStock` count as present whenever supplied — the builder
emits exactly `k` clauses, in the fixed order category term, price range,
rating-floor range, stock-status term, tags membership (strictly increasing
clause kinds); the all-absent FilterSet yields the empty sequence. -/
theorem buildFilterClauses_count_and_order :
    (∀ f : FilterSet,
        (buildFilterClauses f).length = truthyPresentCount f ∧
          ((buildFilterClauses f).map clauseKind).Sorted (· < ·)) ∧
      buildFilterClauses {} = [] := by
  refine ⟨fun f => ⟨?_, ?_⟩, rfl⟩
  · simp only [buildFilterClauses, truthyPresentCount, List.length_append,
      catClauses_length, priceClauses_length, ratingClauses_length,
      stockClauses_length, tagsClauses_length]
  · simp only [buildFilterClauses, List.map_append]
    have kA := catClauses_kinds f.category
    have kB := priceClauses_kinds f.priceMin f.priceMax
    have kC := ratingClauses_kinds f.rating
    have kD := stockClauses_kinds f.inStock
    have kE := tagsClauses_kinds f.tags
    have sA : ((catClauses f.category).map clauseKind).Sorted (· < ·) := by
      apply sorted_of_short
      rw [List.length_map]
      exact catClauses_short f.category
    have sB : ((priceClauses f.priceMin f.priceMax).map clauseKind).Sorted (· < ·) := by
      apply sorted_of_short
      rw [List.length_map]
      exact priceClauses_short f.priceMin f.priceMax
    have sC : ((ratingClauses f.rating).map clauseKind).Sorted (· < ·) := by
      apply sorted_of_short
      rw [List.length_map]
      exact ratingClauses_short f.rating
    have sD : ((stockClauses f.inStock).map clauseKind).Sorted (· < ·) := by
      apply sorted_of_short
      rw [List.length_map]
      exact stockClauses_short f.inStock
    have sE : ((tagsClauses f.tags).map clauseKind).Sorted (· < ·) := by
      apply sorted_of_short
      rw [List.length_map]
      exact tagsClauses_short f.tags
    refine sorted_append_blocks (sorted_append_blocks
      (sorted_append_blocks (sorted_append_blocks sA sB ?_) sC ?_) sD ?_) sE ?_
    · intro x hx y hy; rw [kA x hx, kB y hy]; omega
    · intro x hx y hy
      rcases List.mem_append.mp hx with h | h
      · rw [kA x h, kC y hy]; omega
      · rw [kB x h, kC y hy]; omega
    · intro x hx y hy
      rcases List.mem_append.mp hx with h | h
      · rcases List.mem_append.mp h with h' | h'
        · rw [kA x h', kD y hy]; omega
        · rw [kB x h', kD y hy]; omega
      · rw [kC x h, kD y hy]; omega
    · intro x hx y hy
      rcases List.mem_append.mp hx with h | h
      · rcases List.mem_append.mp h with h' | h'
        · rcases List.mem_append.mp h' with h'' | h''
          · rw [kA x h'', kE y hy]; omega
          · rw [kB x h'', kE y hy]; omega
        · rw [kC x h', kE y hy]; omega
      · rw [kD x h, kE y hy]; omega

/-! ### Query tree compiler (`src/routes/search.js`, lines 9-137). -/

/-- The `searchType` dispatch values of the route's `switch`; any
unrecognized string falls to the default `match_all` branch. -/
inductive SearchType where
  | multi_match
  | match_phrase
  | wildcard
  | fuzzy
  | match_all
deriving DecidableEq, Repr

/-- A node of the compiled query tree: the five primary-match shapes of the
`switch` plus the boolean wrapper of lines 122-131. -/
inductive QueryNode where
  | multiMatch (text : String) (fields : List String) (qtype : String)
      (fuzziness : String)
  | matchPhrase (field : String) (text : String) (slop : ℕ)
  | wildcardNode (field : String) (value : String) (caseInsensitive : Bool)
  | fuzzyNode (field : String) (value : String) (fuzziness : ℕ)
  | matchAll
  | boolNode (must : List QueryNode) (filter : List Clause)

/-- The primary match produced by the `switch (searchType)` of lines 23-82. -/
def primaryQuery (st : SearchType) (q : String) : QueryNode :=
  match st with
  | SearchType.multi_match =>
      QueryNode.multiMatch q ["name^3", "description^2", "category", "tags"]
        "best_fields" "AUTO"
  | SearchType.match_phrase => QueryNode.matchPhrase "name" q 2
  | SearchType.wildcard =>
      QueryNode.wildcardNode "name" ("*" ++ q ++ "*") true
  | SearchType.fuzzy => QueryNode.fuzzyNode "name" q 2
  | SearchType.match_all => QueryNode.matchAll

/-- The `POST /api/search` request body with the route's defaults. -/
structure SearchRequest where
  query : String
  searchType : SearchType := SearchType.multi_match
  filters : FilterSet := {}
  page : ℕ := 1
  size : ℕ := 10
  sortField : String := "createdAt"
  sortOrder : String := "desc"
deriving DecidableEq, Repr

/-- The final `searchQuery` object sent to the engine: query tree, `from`
offset, `size`, and the single-field sort pair. -/
structure CompiledSearch where
  queryTree : QueryNode
  fromOffset : ℤ
  size : ℕ
  sort : String × String

/-- The compilation of `search.js` lines 19-137: `from = (page-1)*size`, the
primary match from the `switch`, the boolean wrapper exactly when
`filterQueries` is non-empty (`if (filterQueries.length > 0)`), then
pagination and sort fields. -/
def buildSearchQuery (r : SearchRequest) : CompiledSearch :=
  let primary := primaryQuery r.searchType r.query
  let clauses := buildFilterClauses r.filters
  { queryTree :=
      if clauses = [] then primary else QueryNode.boolNode [primary] clauses
    fromOffset := ((r.page : ℤ) - 1) * (r.size : ℤ)
    size := r.size
    sort := (r.sortField, r.sortOrder) }

/-- The scenario request of the claim: free text "wireless", multi-match,
one category filter, page 1, page size 10. -/
def wirelessRequest : SearchRequest :=
  { query := "wireless"
    searchType := SearchType.multi_match
    filters := { category := some "Electronics" }
    page := 1
    size := 10 }

/-- Claim C7: the compiler wraps the primary match as the sole `must` entry
of a boolean node with the filter clauses as `filter` entries exactly when
the clause sequence is non-empty, and uses the primary match directly
otherwise; the scenario request (free text "wireless", multi-match,
category filter "Electronics", page 1, page size 10) compiles to the
boolean query with the weighted multi-field match as `must`, the single
category term clause as `filter`, `from = 0` and `size = 10`. -/
theorem buildSearchQuery_bool_wrapping :
    (∀ r : SearchRequest,
        (buildSearchQuery r).queryTree =
          (if buildFilterClauses r.filters = []
            then primaryQuery r.searchType r.query
            else QueryNode.boolNode [primaryQuery r.searchType r.query]
              (buildFilterClauses r.filters))) ∧
      buildSearchQuery wirelessRequest =
        { queryTree := QueryNode.boolNode
            [QueryNode.multiMatch "wireless"
              ["name^3", "description^2", "category", "tags"]
              "best_fields" "AUTO"]
            [Clause.termCategory "Electronics"]
          fromOffset := 0
          size := 10
          sort := ("createdAt", "desc") } := by
  constructor
  · intro r
    rfl
  · rfl

/-! ### Benchmark harness (`POST /api/performance/load-test`, performance
route lines 7-115, and `calculatePercentile`, lines 296-300). -/

/-- What the engine and the clock deliver for one call: either a success
(with the reported hit count, the engine-reported `took`, the serialized
response size and the measured wall-clock duration) or a failure (with the
error message and the duration measured up to the failure). -/
inductive CallOutcome where
  | ok (hits : ℕ) (took : ℚ) (responseSize : ℕ) (duration : ℚ)
  | err (msg : String) (duration : ℚ)
deriving DecidableEq, Repr

/-- One entry of `iterationResults`; fields that JavaScript leaves absent on
the other branch (`hits`/`took`/`responseSize` on failure, `error` on
success) are `none`. -/
structure QueryRecord (Q : Type) where
  query : Q
  success : Bool
  duration : ℚ
  responseSize : Option ℕ := none
  hits : Option ℕ := none
  took : Option ℚ := none
  error : Option String := none
deriving DecidableEq, Repr

/-- The record pushed for one call (performance route lines 57-64 on
success, 69-74 on failure). -/
def mkRecord {Q : Type} (q : Q) : CallOutcome → QueryRecord Q
  | CallOutcome.ok h t sz d =>
      { query := q, success := true, duration := d, responseSize := some sz,
        hits := some h, took := some t }
  | CallOutcome.err m d =>
      { query := q, success := false, duration := d, error := some m }

/-- One entry of `results.results`: the 1-based iteration number and the
per-query records in query order. -/
structure IterationResult (Q : Type) where
  iteration : ℕ
  queries : List (QueryRecord Q)
deriving DecidableEq, Repr

/-- The iteration loop of lines 32-82: for each `i` below `iterations`, run
every query in order (the per-call `try`/`catch` turns each outcome into a
record and never leaves the loop), and push `{iteration: i + 1, queries}`.
The outcome oracle maps (0-based iteration, 0-based query position) to what
the call did. -/
def runLoadTest {Q : Type} (iterations : ℕ) (queries : List Q)
    (outcome : ℕ → ℕ → CallOutcome) : List (IterationResult Q) :=
  (List.range iterations).map fun i =>
    { iteration := i + 1
      queries := queries.enum.map fun jq => mkRecord jq.2 (outcome i jq.1) }

/-- JavaScript array indexing `l[i]` with an integer index: `undefined`
(here `none`) when out of range on either side. -/
def jsIndex {α : Type} (l : List α) (i : ℤ) : Option α :=
  if i < 0 then none else l.get? i.toNat

/-- `calculatePercentile` (performance route lines 296-300): sort a copy of
the array ascending (`arr.slice().sort((a, b) => a - b)`), then return
`sorted[Math.ceil((percentile / 100) * sorted.length) - 1]`. -/
def calculatePercentile (arr : List ℚ) (percentile : ℚ) : Option ℚ :=
  let sorted := arr.insertionSort (· ≤ ·)
  jsIndex sorted (⌈percentile / 100 * (sorted.length : ℚ)⌉ - 1)

/-- The nearest-rank percentile exactly as the spec words it: sort the
durations ascending and take the element at 0-based index
`ceil(p/100 × n) − 1`, where `n` is the number of durations. -/
def specNearestRank (l : List ℚ) (p : ℚ) : Option ℚ :=
  (l.insertionSort (· ≤ ·)).get? (⌈p / 100 * (l.length : ℚ)⌉ - 1).toNat

/-- `Math.min(...l)`: `Infinity` on the empty spread, else the least
element. -/
def jsMinList (l : List ℚ) : JSNum :=
  match l.min? with
  | none => JSNum.inf
  | some m => JSNum.num m

/-- `Math.max(...l)`: `-Infinity` on the empty spread, else the greatest
element. -/
def jsMaxList (l : List ℚ) : JSNum :=
  match l.max? with
  | none => JSNum.ninf
  | some m => JSNum.num m

/-- The `statistics` object of performance route lines 94-106. -/
structure Stats where
  totalQueries : ℕ
  successfulQueries : ℕ
  failedQueries : ℤ
  successRate : JSNum
  averageDuration : JSNum
  minDuration : JSNum
  maxDuration : JSNum
  p50Duration : Option ℚ
  p90Duration : Option ℚ
  p95Duration : Option ℚ
  p99Duration : Option ℚ
deriving DecidableEq, Repr

/-- The statistics computation of lines 84-106 on the flattened record
list: `allDurations` maps every record to its duration (the source's
`filter(d => d !== undefined)` drops nothing, since both branches of the
loop record a duration), `successfulQueries` filters on the success flag,
and the fields follow the source expressions verbatim. -/
def statisticsOfRecords {Q : Type} (records : List (QueryRecord Q)) : Stats :=
  let allDurations := records.map QueryRecord.duration
  let successfulQueries := records.filter QueryRecord.success
  { totalQueries := allDurations.length
    successfulQueries := successfulQueries.length
    failedQueries := (allDurations.length : ℤ) - (successfulQueries.length : ℤ)
    successRate :=
      jsMulConst (jsDivQ (successfulQueries.length : ℚ) (allDurations.length : ℚ)) 100
    averageDuration := jsDivQ allDurations.sum (allDurations.length : ℚ)
    minDuration := jsMinList allDurations
    maxDuration := jsMaxList allDurations
    p50Duration := calculatePercentile allDurations 50
    p90Duration := calculatePercentile allDurations 90
    p95Duration := calculatePercentile allDurations 95
    p99Duration := calculatePercentile allDurations 99 }

/-- The statistics of a whole run: the records of all iterations flattened
in order (`results.results.flatMap(it => it.queries)`). -/
def statisticsOf {Q : Type} (results : List (IterationResult Q)) : Stats :=
  statisticsOfRecords (results.flatMap IterationResult.queries)

/-- Claim C6: for every non-empty duration list and each of the four
percentiles the harness requests, `calculatePercentile` computes exactly
the spec's nearest-rank value — sort ascending, take the element at 0-based
index `ceil(p/100 × n) − 1` — through the one uniform formula (no linear
interpolation, no special case for singleton lists), and that index is
always in range, so the result is a defined value. -/
theorem calculatePercentile_nearest_rank (l : List ℚ) (p : ℚ)
    (hne : l ≠ []) (hp : p = 50 ∨ p = 90 ∨ p = 95 ∨ p = 99) :
    calculatePercentile l p = specNearestRank l p ∧
      (specNearestRank l p).isSome = true := by
  have hlen : (l.insertionSort (· ≤ ·)).length = l.length :=
    (List.perm_insertionSort _ l).length_eq
  have hn : 0 < l.length := List.length_pos.mpr hne
  have hp' : 0 < p ∧ p ≤ 100 := by
    rcases hp with h | h | h | h <;> subst h <;> norm_num
  have hpos : (0 : ℤ) < ⌈p / 100 * (l.length : ℚ)⌉ := by
    rw [Int.lt_ceil]
    push_cast
    have : (0 : ℚ) < (l.length : ℚ) := by exact_mod_cast hn
    exact mul_pos (div_pos hp'.1 (by norm_num)) this
  have hle : ⌈p / 100 * (l.length : ℚ)⌉ ≤ (l.length : ℤ) := by
    rw [Int.ceil_le]
    push_cast
    calc p / 100 * (l.length : ℚ) ≤ 100 / 100 * (l.length : ℚ) := by
          apply mul_le_mul_of_nonneg_right
          · exact div_le_div_of_nonneg_right hp'.2 (by norm_num)
          · exact Nat.cast_nonneg _
      _ = (l.length : ℚ) := by norm_num
  have hidx : (⌈p / 100 * (l.length : ℚ)⌉ - 1).toNat < l.length := by
    omega
  constructor
  · rw [calculatePercentile, specNearestRank, jsIndex, hlen]
    rw [if_neg (by omega)]
  · rw [specNearestRank, List.get?_eq_get (by omega : (⌈p / 100 * (l.length : ℚ)⌉ - 1).toNat < (l.insertionSort (· ≤ ·)).length)]
    rfl

/-- Witness for claim C6's theorem at the concrete duration list `[10, 20]`
and percentile 50. -/
theorem calculatePercentile_nearest_rank_witness :
    ([10, 20] : List ℚ) ≠ [] ∧
      (calculatePercentile [10, 20] 50 = specNearestRank [10, 20] 50 ∧
        (specNearestRank ([10, 20] : List ℚ) 50).isSome = true) :=
  ⟨by simp,
    calculatePercentile_nearest_rank [10, 20] 50 (by simp) (Or.inl rfl)⟩

/-- `arr.slice()` with no arguments: a copy of the array; as a value it is
the same sequence, and the original array is untouched. -/
def jsSlice {α : Type} (l : List α) : List α := l

/-- `calculatePercentile` as a state transformer on the `arr` array: the
route sorts `arr.slice()` — a copy — in place, so the post-state of `arr`
(second component) is its pre-state; the returned value is the indexed
element of the sorted copy. -/
def calculatePercentileSt (arr : List ℚ) (percentile : ℚ) :
    Option ℚ × List ℚ :=
  let copy := jsSlice arr
  let sorted := copy.insertionSort (· ≤ ·)
  (jsIndex sorted (⌈percentile / 100 * (sorted.length : ℚ)⌉ - 1), arr)

/-- A sequence of percentile computations over the same array, each seeing
the array state the previous call left behind — the shape of lines 102-105,
which call `calculatePercentile(allDurations, p)` four times in a row. -/
def runPercentileCalls (arr : List ℚ) : List ℚ → List (Option ℚ) × List ℚ
  | [] => ([], arr)
  | p :: ps =>
      let r := calculatePercentileSt arr p
      let rest := runPercentileCalls r.2 ps
      (r.1 :: rest.1, rest.2)

/-- Claim C10: `calculatePercentile` sorts a copy (`slice()` before
`sort`), so it never mutates its input: after any sequence of percentile
computations the array equals its original value, and each call in the
sequence returns exactly what an independent call on the original array
returns — in particular the four successive p50/p90/p95/p99 calls are
independent of one another, and the per-call results list built before the
statistics block is left untouched in its original iteration order. -/
theorem calculatePercentile_no_mutation :
    ∀ (ps : List ℚ) (arr : List ℚ),
      (runPercentileCalls arr ps).2 = arr ∧
        (runPercentileCalls arr ps).1 = ps.map (calculatePercentile arr) := by
  intro ps
  induction ps with
  | nil => intro arr; exact ⟨rfl, rfl⟩
  | cons p rest ih =>
      intro arr
      have h2 : (calculatePercentileSt arr p).2 = arr := rfl
      constructor
      · show (runPercentileCalls (calculatePercentileSt arr p).2 rest).2 = arr
        rw [h2]
        exact (ih arr).1
      · show (calculatePercentileSt arr p).1 ::
            (runPercentileCalls (calculatePercentileSt arr p).2 rest).1 =
            calculatePercentile arr p :: rest.map (calculatePercentile arr)
        rw [h2, (ih arr).2]
        rfl

instance : Std.Antisymm (fun a b : ℚ => a ≤ b) :=
  ⟨fun h h' => le_antisymm h h'⟩

theorem min?_perm_eq {l₁ l₂ : List ℚ} (h : l₁.Perm l₂) : l₁.min? = l₂.min? := by
  cases e : l₁.min? with
  | none =>
      rw [List.min?_eq_none_iff] at e
      subst e
      rw [h.symm.eq_nil]
      rfl
  | some a =>
      rw [List.min?_eq_some_iff (fun a => le_refl a) (fun a b => min_choice a b)
        (fun a b c => le_min_iff)] at e
      symm
      rw [List.min?_eq_some_iff (fun a => le_refl a) (fun a b => min_choice a b)
        (fun a b c => le_min_iff)]
      exact ⟨h.mem_iff.mp e.1, fun b hb => e.2 b (h.mem_iff.mpr hb)⟩

theorem max?_perm_eq {l₁ l₂ : List ℚ} (h : l₁.Perm l₂) : l₁.max? = l₂.max? := by
  cases e : l₁.max? with
  | none =>
      rw [List.max?_eq_none_iff] at e
      subst e
      rw [h.symm.eq_nil]
      rfl
  | some a =>
      rw [List.max?_eq_some_iff (fun a => le_refl a) (fun a b => max_choice a b)
        (fun a b c => max_le_iff)] at e
      symm
      rw [List.max?_eq_some_iff (fun a => le_refl a) (fun a b => max_choice a b)
        (fun a b c => max_le_iff)]
      exact ⟨h.mem_iff.mp e.1, fun b hb => e.2 b (h.mem_iff.mpr hb)⟩

theorem insertionSort_perm_eq {l₁ l₂ : List ℚ} (h : l₁.Perm l₂) :
    l₁.insertionSort (· ≤ ·) = l₂.insertionSort (· ≤ ·) :=
  List.eq_of_perm_of_sorted
    ((List.perm_insertionSort _ l₁).trans
      (h.trans (List.perm_insertionSort _ l₂).symm))
    (List.sorted_insertionSort _ l₁)
    (List.sorted_insertionSort _ l₂)

/-- Claim C9: the benchmark statistics are invariant under permuting the
flattened record list — every field (count, success counts, success rate,
mean, min, max and the four percentiles) is unchanged, because lengths,
sums, filters, extrema and the ascending sort feeding the nearest-rank
formula are all permutation-invariant. -/
theorem statisticsOfRecords_perm_invariant {Q : Type}
    {recs₁ recs₂ : List (QueryRecord Q)} (h : recs₁.Perm recs₂) :
    statisticsOfRecords recs₁ = statisticsOfRecords recs₂ := by
  have hd : (recs₁.map QueryRecord.duration).Perm
      (recs₂.map QueryRecord.duration) := h.map _
  have hdlen : (recs₁.map QueryRecord.duration).length =
      (recs₂.map QueryRecord.duration).length := hd.length_eq
  have hs : (recs₁.filter QueryRecord.success).length =
      (recs₂.filter QueryRecord.success).length :=
    (h.filter _).length_eq
  have hsum : (recs₁.map QueryRecord.duration).sum =
      (recs₂.map QueryRecord.duration).sum := hd.sum_eq
  have hsort : (recs₁.map QueryRecord.duration).insertionSort (· ≤ ·) =
      (recs₂.map QueryRecord.duration).insertionSort (· ≤ ·) :=
    insertionSort_perm_eq hd
  simp only [statisticsOfRecords, calculatePercentile, jsMinList, jsMaxList,
    hdlen, hs, hsum, hsort, min?_perm_eq hd, max?_perm_eq hd]

/-- A successful call record: 3 hits, engine took 2 ms, 40 bytes, 3 ms. -/
def okRecord : QueryRecord String :=
  { query := "q1", success := true, duration := 3, responseSize := some 40,
    hits := some 3, took := some 2 }

/-- A failed call record: 5 ms until the error surfaced. -/
def failedRecord : QueryRecord String :=
  { query := "q2", success := false, duration := 5,
    error := some "engine down" }

/-- Witness for claim C9's theorem at a concrete two-record swap. -/
theorem statisticsOfRecords_perm_invariant_witness :
    statisticsOfRecords [okRecord, failedRecord] =
      statisticsOfRecords [failedRecord, okRecord] :=
  statisticsOfRecords_perm_invariant (List.Perm.swap failedRecord okRecord [])

/-- Claim C4, counterexample: on a run whose single attempted call failed
after 5 ms, the statistics' mean duration is the defined number 5 — not
`NaN` and not omitted — because `allDurations` keeps the durations of
failed calls; the success rate is 0 as claimed. -/
theorem statisticsOfRecords_all_failed_mean_defined :
    (statisticsOfRecords [failedRecord]).averageDuration = JSNum.num 5 ∧
      JSNum.num (5 : ℚ) ≠ JSNum.nan ∧
      (statisticsOfRecords [failedRecord]).successRate = JSNum.num 0 := by
  refine ⟨?_, by simp, ?_⟩
  · show jsDivQ ([failedRecord].map QueryRecord.duration).sum
        (([failedRecord].map QueryRecord.duration).length : ℚ) = JSNum.num 5
    norm_num [failedRecord, jsDivQ]
  · show jsMulConst (jsDivQ (([failedRecord].filter QueryRecord.success).length : ℚ)
        (([failedRecord].map QueryRecord.duration).length : ℚ)) 100 = JSNum.num 0
    norm_num [failedRecord, jsDivQ, jsMulConst, List.filter]

/-- Claim C4 (amended): a benchmark run with at least one attempted call in
which every call fails reports `successRate = 0` inside a defined,
non-crashing statistics structure, and its mean/min/max are the mean,
minimum and maximum of the (failed) calls' durations — defined finite
numbers, not `NaN` and not omitted, because the statistics are computed
over the durations of all attempted calls, failures included. -/
theorem statisticsOfRecords_all_failed (Q : Type) (recs : List (QueryRecord Q))
    (hne : recs ≠ []) (hfail : ∀ r ∈ recs, r.success = false) :
    (statisticsOfRecords recs).successRate = JSNum.num 0 ∧
      (statisticsOfRecords recs).successfulQueries = 0 ∧
      (statisticsOfRecords recs).failedQueries = (recs.length : ℤ) ∧
      (statisticsOfRecords recs).averageDuration =
        JSNum.num ((recs.map QueryRecord.duration).sum / (recs.length : ℚ)) ∧
      (∃ m, (statisticsOfRecords recs).minDuration = JSNum.num m) ∧
      (∃ m, (statisticsOfRecords recs).maxDuration = JSNum.num m) := by
  have hfilter : recs.filter QueryRecord.success = [] := by
    rw [List.filter_eq_nil]
    intro a ha
    simp [hfail a ha]
  have hlen0 : recs.length ≠ 0 := fun h0 => hne (List.length_eq_zero.mp h0)
  have hlenq : ((recs.map QueryRecord.duration).length : ℚ) ≠ 0 := by
    rw [List.length_map]
    exact_mod_cast hlen0
  refine ⟨?_, ?_, ?_, ?_, ?_, ?_⟩
  · show jsMulConst (jsDivQ ((recs.filter QueryRecord.success).length : ℚ)
        ((recs.map QueryRecord.duration).length : ℚ)) 100 = JSNum.num 0
    rw [hfilter]
    simp [jsDivQ, jsMulConst, List.length_map, hlen0]
  · show (recs.filter QueryRecord.success).length = 0
    rw [hfilter]
    rfl
  · show ((recs.map QueryRecord.duration).length : ℤ) -
        ((recs.filter QueryRecord.success).length : ℤ) = (recs.length : ℤ)
    rw [hfilter, List.length_map]
    simp
  · show jsDivQ (recs.map QueryRecord.duration).sum
        ((recs.map QueryRecord.duration).length : ℚ) =
        JSNum.num ((recs.map QueryRecord.duration).sum / (recs.length : ℚ))
    rw [jsDivQ, if_neg hlenq, List.length_map]
  · show (∃ m, jsMinList (recs.map QueryRecord.duration) = JSNum.num m)
    cases e : (recs.map QueryRecord.duration).min? with
    | none =>
        rw [List.min?_eq_none_iff, List.map_eq_nil] at e
        exact absurd e hne
    | some m => exact ⟨m, by rw [jsMinList, e]⟩
  · show (∃ m, jsMaxList (recs.map QueryRecord.duration) = JSNum.num m)
    cases e : (recs.map QueryRecord.duration).max? with
    | none =>
        rw [List.max?_eq_none_iff, List.map_eq_nil] at e
        exact absurd e hne
    | some m => exact ⟨m, by rw [jsMaxList, e]⟩

/-- Witness for claim C4's amended theorem at the concrete one-record
all-failed run. -/
theorem statisticsOfRecords_all_failed_witness :
    ([failedRecord] : List (QueryRecord String)) ≠ [] ∧
      (∀ r ∈ [failedRecord], r.success = false) ∧
      ((statisticsOfRecords [failedRecord]).successRate = JSNum.num 0 ∧
        (statisticsOfRecords [failedRecord]).successfulQueries = 0 ∧
        (statisticsOfRecords [failedRecord]).failedQueries =
          (([failedRecord] : List (QueryRecord String)).length : ℤ) ∧
        (statisticsOfRecords [failedRecord]).averageDuration =
          JSNum.num ((([failedRecord] : List (QueryRecord String)).map
              QueryRecord.duration).sum /
            (([failedRecord] : List (QueryRecord String)).length : ℚ)) ∧
        (∃ m, (statisticsOfRecords [failedRecord]).minDuration = JSNum.num m) ∧
        (∃ m, (statisticsOfRecords [failedRecord]).maxDuration = JSNum.num m)) :=
  ⟨by simp, by simp [failedRecord],
    statisticsOfRecords_all_failed String [failedRecord] (by simp)
      (by simp [failedRecord])⟩

/-- Claim C8: a failing call does not abort the run — whatever the outcome
oracle does, the run has exactly `iterations` iteration results, the `i`-th
carries iteration number `i + 1` and one record per query in query order,
the record at position `(i, j)` is built from query `j` and outcome
`(i, j)`, and when that outcome is a failure the record carries the error
message, the duration measured up to the failure, and a false success
flag. -/
theorem runLoadTest_no_abort (Q : Type) (iterations : ℕ) (queries : List Q)
    (outcome : ℕ → ℕ → CallOutcome) (i j : ℕ)
    (hi : i < iterations) (hj : j < queries.length) :
    (runLoadTest iterations queries outcome).length = iterations ∧
      ∃ ir : IterationResult Q,
        (runLoadTest iterations queries outcome).get? i = some ir ∧
          ir.iteration = i + 1 ∧
          ir.queries.length = queries.length ∧
          ∃ q : Q, queries.get? j = some q ∧
            ir.queries.get? j = some (mkRecord q (outcome i j)) ∧
            ∀ m d, outcome i j = CallOutcome.err m d →
              (mkRecord q (outcome i j)).error = some m ∧
                (mkRecord q (outcome i j)).duration = d ∧
                (mkRecord q (outcome i j)).success = false := by
  constructor
  · simp [runLoadTest]
  · refine ⟨{ iteration := i + 1
              queries := queries.enum.map fun jq => mkRecord jq.2 (outcome i jq.1) },
      ?_, rfl, ?_, ?_⟩
    · rw [runLoadTest, List.get?_map, List.get?_range hi]
      rfl
    · simp [List.length_map, List.enum_length]
    · have hj' : j < queries.enum.length := by
        rw [List.enum_length]
        exact hj
      refine ⟨queries.get ⟨j, hj⟩, List.get?_eq_get hj, ?_, ?_⟩
      · show (queries.enum.map fun jq => mkRecord jq.2 (outcome i jq.1)).get? j = _
        rw [List.get?_map, List.get?_eq_get hj']
        have he : queries.enum.get ⟨j, hj'⟩ = (j, queries.get ⟨j, hj⟩) := by
          simp [List.getElem_enum]
        rw [he]
        rfl
      · intro m d he
        rw [he]
        exact ⟨rfl, rfl, rfl⟩

/-- The outcome oracle of the witness run: the second query of the first
iteration times out after 7 ms, every other call succeeds in 4 ms. -/
def demoOutcome : ℕ → ℕ → CallOutcome := fun i j =>
  if i = 0 ∧ j = 1 then CallOutcome.err "timeout" 7
  else CallOutcome.ok 3 2 40 4

/-- Witness for claim C8's theorem at the failing call (iteration 0,
query 1) of a concrete 2-iteration, 2-query run. -/
theorem runLoadTest_no_abort_witness :
    (0 : ℕ) < 2 ∧ (1 : ℕ) < ([10, 20] : List ℕ).length ∧
      ((runLoadTest 2 [10, 20] demoOutcome).length = 2 ∧
        ∃ ir : IterationResult ℕ,
          (runLoadTest 2 [10, 20] demoOutcome).get? 0 = some ir ∧
            ir.iteration = 0 + 1 ∧
            ir.queries.length = ([10, 20] : List ℕ).length ∧
            ∃ q : ℕ, ([10, 20] : List ℕ).get? 1 = some q ∧
              ir.queries.get? 1 = some (mkRecord q (demoOutcome 0 1)) ∧
              ∀ m d, demoOutcome 0 1 = CallOutcome.err m d →
                (mkRecord q (demoOutcome 0 1)).error = some m ∧
                  (mkRecord q (demoOutcome 0 1)).duration = d ∧
                  (mkRecord q (demoOutcome 0 1)).success = false) :=
  ⟨by decide, by decide,
    runLoadTest_no_abort ℕ 2 [10, 20] demoOutcome 0 1 (by decide) (by decide)⟩
